import Mathlib

/-!
Verification of the RentalApp backend: a shallow embedding in Lean 4 of the
application/lease lifecycle, the property query builder, the property
creation pipeline and the authorization middleware, together with theorems
settling the specification claims C1-C10.

JavaScript `Date` values are modelled at day granularity as (year, month,
day) triples with JS conventions: months are 0-indexed (0 = January) and
`setMonth(m+1)` rolls an out-of-range day over into the following month.
Comparison of normalized dates is lexicographic, matching timestamp order.
-/

/-- A JavaScript `Date` at day granularity: 0-indexed month, 1-based day. -/
structure JDate where
  year : Int
  month : Int
  day : Int
  deriving DecidableEq, Repr

/-- Gregorian leap-year rule used by JS `Date`. -/
def isLeapYear (y : Int) : Bool :=
  y % 4 = 0 && (y % 100 != 0 || y % 400 = 0)

/-- Number of days in month `m` (0-indexed) of year `y`. -/
def daysInMonth (y m : Int) : Int :=
  if m = 1 then (if isLeapYear y then 29 else 28)
  else if m = 3 || m = 5 || m = 8 || m = 10 then 30
  else 31

/-- A date is normalized: month in 0..11, day in 1..daysInMonth. -/
def JDate.valid (dt : JDate) : Prop :=
  0 ≤ dt.month ∧ dt.month ≤ 11 ∧ 1 ≤ dt.day ∧ dt.day ≤ daysInMonth dt.year dt.month

instance (dt : JDate) : Decidable dt.valid := by
  unfold JDate.valid; infer_instance

/-- JS day-overflow normalization: a (year, month, day) with day possibly
past the end of the month rolls over into the following month (a day
field never exceeds 31, so one roll suffices). -/
def jsNormalizeDate (y m d : Int) : JDate :=
  if d ≤ daysInMonth y m then ⟨y, m, d⟩
  else if m = 11 then ⟨y + 1, 0, d - daysInMonth y m⟩
  else ⟨y, m + 1, d - daysInMonth y m⟩

/-- JS `d.setMonth(d.getMonth() + 1)`: advance one month, rolling an
out-of-range day (e.g. Jan 31 -> "Feb 31") over into the next month. -/
def jsAddOneMonth (dt : JDate) : JDate :=
  if dt.month = 11 then jsNormalizeDate (dt.year + 1) 0 dt.day
  else jsNormalizeDate dt.year (dt.month + 1) dt.day

/-- JS `new Date(d.setFullYear(d.getFullYear() + 1))`: one year later,
rolling Feb 29 over into March 1 of a non-leap year. -/
def jsAddOneYear (dt : JDate) : JDate :=
  jsNormalizeDate (dt.year + 1) dt.month dt.day

/-- `a <= b` on JS dates: timestamp order, i.e. lexicographic on
normalized (year, month, day). -/
def jle (a b : JDate) : Prop :=
  a.year < b.year ∨ (a.year = b.year ∧
    (a.month < b.month ∨ (a.month = b.month ∧ a.day ≤ b.day)))

instance (a b : JDate) : Decidable (jle a b) := by
  unfold jle; infer_instance

/-- `a < b` on JS dates (strict timestamp order). -/
def jlt (a b : JDate) : Prop :=
  a.year < b.year ∨ (a.year = b.year ∧
    (a.month < b.month ∨ (a.month = b.month ∧ a.day < b.day)))

instance (a b : JDate) : Decidable (jlt a b) := by
  unfold jlt; infer_instance

theorem not_jle_iff_jlt (a b : JDate) : ¬ jle a b ↔ jlt b a := by
  unfold jle jlt; omega

/-- Linearized month index `12*year + month`; strictly increases along
`jsAddOneMonth` and bounds the number of loop iterations. -/
def monthIdx (dt : JDate) : Int := 12 * dt.year + dt.month

/-- n-fold application of `jsAddOneMonth`. -/
def iterMonths : Nat → JDate → JDate
  | 0, d => d
  | n + 1, d => iterMonths n (jsAddOneMonth d)

/-- Fuelled unfolding of the source's
`while (nextPaymentDate <= today) nextPaymentDate.setMonth(getMonth() + 1)`
loop; `advanceMonths_spec` certifies the fuel used is sufficient. -/
def advanceMonths : Nat → JDate → JDate → JDate
  | 0, _, d => d
  | k + 1, today, d => if jle d today then advanceMonths k today (jsAddOneMonth d) else d

/-- `calculateNextPaymentDate(startDate)` from the applications controller,
with the implicit `today` made an explicit argument. -/
def calculateNextPaymentDate (startDate today : JDate) : JDate :=
  advanceMonths (monthIdx today + 2 - monthIdx startDate).toNat today startDate

/-! ## Kernel-reducible string helpers (JS `split`, `toLowerCase`) -/

/-- Split a character list at a separator character (JS
`String.prototype.split` with a one-character separator). -/
def splitCharsAux (sep : Char) : List Char → List Char → List String
  | [], acc => [String.mk acc.reverse]
  | c :: rest, acc =>
    if c = sep then String.mk acc.reverse :: splitCharsAux sep rest []
    else splitCharsAux sep rest (c :: acc)

/-- JS `s.split(sep)` for a one-character separator. -/
def jsSplit (sep : Char) (s : String) : List String :=
  splitCharsAux sep s.data []

/-- JS `s.toLowerCase()` (ASCII). -/
def jsToLowerCase (s : String) : String :=
  String.mk (s.data.map Char.toLower)

/-! ## Authorization middleware (src/server/src/middleware/authMiddleware.ts) -/

/-- Payload of `jwt.decode`: the `sub` claim and the optional
`custom:role` claim. -/
structure DecodedToken where
  sub : String
  customRole : Option String
  deriving DecidableEq, Repr

/-- Outcome of the middleware: 401 / 400 / 403 / call `next()` with
`req.user = {id, role}` attached. -/
inductive AuthOutcome where
  | unauthorized401
  | invalidToken400
  | forbidden403 (id role : String)
  | proceed (id role : String)
  deriving DecidableEq, Repr

/-- `req.headers.authorization?.split(" ")[1]`. -/
def extractBearerToken (authHeader : Option String) : Option String :=
  authHeader.bind (fun h => (jsSplit ' ' h).get? 1)

/-- `authMiddleware(allowedRoles)` applied to one request. `decode` stands
for `jwt.decode`, returning `none` when the library yields `null` (reading
a claim off `null` throws, caught as a 400). The role claim defaults to
the empty string, is lowercased, and is tested for exact membership in
`allowedRoles`. -/
def authMiddleware (allowedRoles : List String) (decode : String → Option DecodedToken)
    (authHeader : Option String) : AuthOutcome :=
  match extractBearerToken authHeader with
  | none => .unauthorized401
  | some t =>
    if t = "" then .unauthorized401
    else
      match decode t with
      | none => .invalidToken400
      | some d =>
        let userRole := d.customRole.getD ""
        if allowedRoles.contains (jsToLowerCase userRole) then .proceed d.sub userRole
        else .forbidden403 d.sub userRole

/-- A decode table for concrete runs: tokens "t.tenant", "t.manager",
"t.Manager" carry roles "tenant", "manager", "Manager". -/
def demoDecode : String → Option DecodedToken := fun t =>
  if t = "t.tenant" then some ⟨"user-t", some "tenant"⟩
  else if t = "t.manager" then some ⟨"user-m", some "manager"⟩
  else if t = "t.Manager" then some ⟨"user-M", some "Manager"⟩
  else none

/-! ## Application lifecycle (src/unnamed/part_004, applications controller) -/

/-- A `Lease` row. Money amounts are modelled as rationals. -/
structure Lease where
  id : Nat
  startDate : JDate
  endDate : JDate
  rent : Rat
  deposit : Rat
  propertyId : Nat
  tenantCognitoId : String
  deriving DecidableEq, Repr

/-- An `Application` row; `leaseId` is the optional lease reference. -/
structure Application where
  id : Nat
  applicationDate : JDate
  status : String
  name : String
  email : String
  phoneNumber : String
  message : String
  propertyId : Nat
  tenantCognitoId : String
  leaseId : Option Nat
  deriving DecidableEq, Repr

/-- A `Property` row with its many-to-many tenant links (occupancy set). -/
structure Property where
  id : Nat
  pricePerMonth : Rat
  securityDeposit : Rat
  managerCognitoId : String
  tenantCognitoIds : List String
  deriving DecidableEq, Repr

/-- The database state touched by the applications controller. The
`next…Id` counters model autoincrement primary keys: every stored row's
id is below the counter. -/
structure Db where
  properties : List Property
  applications : List Application
  leases : List Lease
  nextLeaseId : Nat
  nextApplicationId : Nat
  deriving DecidableEq, Repr

/-- `prisma.application.findUnique({where: {id}})`. -/
def findApplication (db : Db) (id : Nat) : Option Application :=
  db.applications.find? (fun a => a.id == id)

/-- `prisma.property.findUnique({where: {id}})`. -/
def findProperty (db : Db) (id : Nat) : Option Property :=
  db.properties.find? (fun p => p.id == id)

/-- Prisma `tenants: { connect: … }` on a property: link the tenant if not
already linked. -/
def connectTenant (p : Property) (tid : String) : Property :=
  if p.tenantCognitoIds.contains tid then p
  else { p with tenantCognitoIds := p.tenantCognitoIds ++ [tid] }

/-- Run a sequence of database writes in order. -/
def runWrites (ws : List (Db → Db)) (db : Db) : Db :=
  ws.foldl (fun s w => w s) db

/-- The lease created by the approval branch of `updateApplicationStatus`:
start = now, end = one year later, rent and deposit copied from the
application's property. -/
def approvalLease (now : JDate) (leaseId : Nat) (app : Application) (prop : Property) : Lease :=
  { id := leaseId, startDate := now, endDate := jsAddOneYear now,
    rent := prop.pricePerMonth, deposit := prop.securityDeposit,
    propertyId := app.propertyId, tenantCognitoId := app.tenantCognitoId }

/-- The three writes of the approval branch, in source order:
`lease.create`, `property.update` (connect tenant),
`application.update` (status + leaseId). -/
def approvalWrites (now : JDate) (id : Nat) (status : String) (leaseId : Nat)
    (app : Application) (prop : Property) : List (Db → Db) :=
  [ fun db => { db with
      leases := db.leases ++ [approvalLease now leaseId app prop],
      nextLeaseId := db.nextLeaseId + 1 },
    fun db => { db with
      properties := db.properties.map
        (fun p => if p.id == app.propertyId then connectTenant p app.tenantCognitoId else p) },
    fun db => { db with
      applications := db.applications.map
        (fun a => if a.id == id then { a with status := status, leaseId := some leaseId } else a) } ]

/-- Result of `updateApplicationStatus`: 404 when the application does not
exist; 500 when the included property is missing (reading a field off
`undefined` throws); otherwise the new database state and the re-fetched
application returned in the response. -/
inductive UpdateStatusResult where
  | notFound
  | internalError
  | ok (db : Db) (returned : Option Application)
  deriving DecidableEq, Repr

/-- `updateApplicationStatus` from the applications controller. The
`"Approved"` branch runs the three `approvalWrites`; any other status runs
a single `application.update` of the status field only. -/
def updateApplicationStatus (now : JDate) (db : Db) (id : Nat) (status : String) :
    UpdateStatusResult :=
  match findApplication db id with
  | none => .notFound
  | some app =>
    if status = "Approved" then
      match findProperty db app.propertyId with
      | none => .internalError
      | some prop =>
        let db' := runWrites (approvalWrites now id status db.nextLeaseId app prop) db
        .ok db' (findApplication db' id)
    else
      let db' := { db with
        applications := db.applications.map
          (fun a => if a.id == id then { a with status := status } else a) }
      .ok db' (findApplication db' id)

/-- Partial-failure semantics of `updateApplicationStatus`: its writes run
with NO surrounding `prisma.$transaction` in the source, so if a later
write throws, the first `committed` writes stay committed. -/
def updateApplicationStatusOnFailure (now : JDate) (db : Db) (id : Nat) (status : String)
    (committed : Nat) : Db :=
  match findApplication db id with
  | none => db
  | some app =>
    if status = "Approved" then
      match findProperty db app.propertyId with
      | none => db
      | some prop =>
        runWrites ((approvalWrites now id status db.nextLeaseId app prop).take committed) db
    else db

/-- Request body of `createApplication`. -/
structure CreateApplicationBody where
  applicationDate : JDate
  status : String
  propertyId : Nat
  tenantCognitoId : String
  name : String
  email : String
  phoneNumber : String
  message : String
  deriving DecidableEq, Repr

/-- The lease created by `createApplication`: start = now, end = one year
later, rent/deposit copied from the property. -/
def creationLease (now : JDate) (leaseId : Nat) (body : CreateApplicationBody)
    (prop : Property) : Lease :=
  { id := leaseId, startDate := now, endDate := jsAddOneYear now,
    rent := prop.pricePerMonth, deposit := prop.securityDeposit,
    propertyId := body.propertyId, tenantCognitoId := body.tenantCognitoId }

/-- The application row created by `createApplication`, referencing the
lease just created. -/
def creationApplication (appId leaseId : Nat) (body : CreateApplicationBody) : Application :=
  { id := appId, applicationDate := body.applicationDate, status := body.status,
    name := body.name, email := body.email, phoneNumber := body.phoneNumber,
    message := body.message, propertyId := body.propertyId,
    tenantCognitoId := body.tenantCognitoId, leaseId := some leaseId }

/-- The two writes of `createApplication`, in source order: `lease.create`,
then `application.create` referencing that lease. -/
def createApplicationWrites (now : JDate) (body : CreateApplicationBody) (prop : Property)
    (leaseId appId : Nat) : List (Db → Db) :=
  [ fun db => { db with
      leases := db.leases ++ [creationLease now leaseId body prop],
      nextLeaseId := db.nextLeaseId + 1 },
    fun db => { db with
      applications := db.applications ++ [creationApplication appId leaseId body],
      nextApplicationId := db.nextApplicationId + 1 } ]

/-- Result of `createApplication`: 404 when the property does not exist,
otherwise 201 with the new state. -/
inductive CreateApplicationResult where
  | notFound
  | ok (db : Db)
  deriving DecidableEq, Repr

/-- `createApplication` from the applications controller; its two writes
run inside `prisma.$transaction`. -/
def createApplication (now : JDate) (db : Db) (body : CreateApplicationBody) :
    CreateApplicationResult :=
  match findProperty db body.propertyId with
  | none => .notFound
  | some prop =>
    .ok (runWrites (createApplicationWrites now body prop db.nextLeaseId db.nextApplicationId) db)

/-- Partial-failure semantics of `createApplication`: both writes run
inside `prisma.$transaction` in the source, so a failure of either write
rolls the whole transaction back and the database is unchanged. -/
def createApplicationOnFailure (db : Db) : Db := db

/-! ## Application list (src/unnamed/part_004, `listApplications`) -/

/-- JS truthiness of an optional query-string value: absent and `""` are
falsy. -/
def truthyStr : Option String → Bool
  | none => false
  | some s => s != ""

/-- The `whereClause` built by `listApplications`. -/
inductive ApplicationsWhere where
  | all
  | byTenant (id : String)
  | byManager (id : String)
  deriving DecidableEq, Repr

/-- `listApplications` where-clause construction: the clause stays `{}`
unless both `userId` and `userType` are truthy and `userType` is exactly
"tenant" or "manager". -/
def listApplicationsWhere (userId userType : Option String) : ApplicationsWhere :=
  if truthyStr userId && truthyStr userType then
    if userType == some "tenant" then .byTenant (userId.getD "")
    else if userType == some "manager" then .byManager (userId.getD "")
    else .all
  else .all

/-- Evaluate the where-clause on one application row. -/
def matchesWhere (db : Db) (w : ApplicationsWhere) (a : Application) : Bool :=
  match w with
  | .all => true
  | .byTenant tid => a.tenantCognitoId == tid
  | .byManager mid => db.properties.any
      (fun p => p.id == a.propertyId && p.managerCognitoId == mid)

/-- `prisma.application.findMany({where})` of `listApplications`. -/
def selectApplications (db : Db) (userId userType : Option String) : List Application :=
  db.applications.filter (matchesWhere db (listApplicationsWhere userId userType))

/-- The leases matching the per-application `findFirst` where-clause:
same tenant cognito id and same property id. -/
def leasesMatching (db : Db) (a : Application) : List Lease :=
  db.leases.filter
    (fun l => l.tenantCognitoId == a.tenantCognitoId && l.propertyId == a.propertyId)

/-- `findFirst({orderBy: {startDate: "desc"}})`: the first row of the
stable descending sort, i.e. the earliest-listed row with maximal
`startDate`. -/
def findFirstLeaseByStartDateDesc : List Lease → Option Lease
  | [] => none
  | l :: ls =>
    match findFirstLeaseByStartDateDesc ls with
    | none => some l
    | some b => if jlt l.startDate b.startDate then some b else some l

/-- The lease `listApplications` attaches to a listed application. -/
def attachedLease (db : Db) (a : Application) : Option Lease :=
  findFirstLeaseByStartDateDesc (leasesMatching db a)

/-- The lease object in the formatted response, carrying the computed
`nextPaymentDate`. -/
structure FormattedLease where
  lease : Lease
  nextPaymentDate : JDate
  deriving DecidableEq, Repr

/-- The `lease` field of a formatted application: the attached lease with
its `nextPaymentDate`, or `null`. -/
def formatApplicationLease (now : JDate) (db : Db) (a : Application) : Option FormattedLease :=
  (attachedLease db a).map (fun l => ⟨l, calculateNextPaymentDate l.startDate now⟩)

/-! ## Property query builder (src/server/src/controllers/propertyControllers.ts, `getProperties`) -/

def isAsciiDigit (c : Char) : Bool := '0' ≤ c && c ≤ '9'

/-- Value of a digit string. -/
def digitsVal (cs : List Char) : Nat :=
  cs.foldl (fun n c => 10 * n + (c.toNat - '0'.toNat)) 0

/-- Value of a fractional digit string. -/
def fracVal (cs : List Char) : Rat :=
  (digitsVal cs : Rat) / ((10 : Rat) ^ cs.length)

def parseSign : List Char → Int × List Char
  | '-' :: t => (-1, t)
  | '+' :: t => (1, t)
  | cs => (1, cs)

/-- Parse a leading decimal literal (sign, digits, optional fraction);
returns the value and the unconsumed rest, or `none` if no digits. -/
def parseDecimal (cs : List Char) : Option (Rat × List Char) :=
  let (sgn, r) := parseSign cs
  let ip := r.takeWhile isAsciiDigit
  let r2 := r.drop ip.length
  match r2 with
  | '.' :: t =>
    let fp := t.takeWhile isAsciiDigit
    if ip.isEmpty && fp.isEmpty then none
    else some ((sgn : Rat) * ((digitsVal ip : Rat) + fracVal fp), t.drop fp.length)
  | _ => if ip.isEmpty then none else some ((sgn : Rat) * (digitsVal ip : Rat), r2)

/-- JS `parseFloat`: skip spaces, read the longest decimal prefix; `none`
models `NaN`. -/
def jsParseFloat (s : String) : Option Rat :=
  (parseDecimal (s.data.dropWhile (fun c => c == ' '))).map (fun v => v.1)

/-- JS `parseInt` (radix 10): skip spaces, read the longest integer
prefix; `none` models `NaN`. -/
def jsParseInt (s : String) : Option Int :=
  let r := (s.data.dropWhile (fun c => c == ' '))
  let (sgn, r1) := parseSign r
  let ip := r1.takeWhile isAsciiDigit
  if ip.isEmpty then none else some (sgn * (digitsVal ip : Int))

/-- JS `Number(...)` on a string: empty/whitespace is 0, otherwise the
whole string must be a decimal literal; `none` models `NaN`. -/
def jsNumber (s : String) : Option Rat :=
  let t := s.trim
  if t = "" then some 0
  else
    match parseDecimal t.data with
    | some (v, []) => some v
    | _ => none

/-- The query parameters of `GET /properties`, all optional. -/
structure PropertyQueryParams where
  favoriteIds : Option String
  priceMin : Option String
  priceMax : Option String
  beds : Option String
  baths : Option String
  propertyType : Option String
  squareFeetMin : Option String
  squareFeetMax : Option String
  amenities : Option String
  availableFrom : Option String
  latitude : Option String
  longitude : Option String
  deriving DecidableEq, Repr

/-- The query with every filter parameter left unset. -/
def noParams : PropertyQueryParams :=
  ⟨none, none, none, none, none, none, none, none, none, none, none, none⟩

/-- Parse an ISO `YYYY-MM-DD` string as JS `new Date` would (month
1-based in the string, 0-based in the date); `none` models an invalid
date. -/
def jsParseDate (s : String) : Option JDate :=
  match jsSplit '-' s with
  | [ys, ms, ds] =>
    match jsParseInt ys, jsParseInt ms, jsParseInt ds with
    | some y, some m, some d =>
      if 1 ≤ m ∧ m ≤ 12 ∧ 1 ≤ d ∧ d ≤ daysInMonth y (m - 1) then some ⟨y, m - 1, d⟩
      else none
    | _, _, _ => none
  | _ => none

/-- One predicate pushed onto `whereConditions`; option-valued numbers
model `NaN` operands. -/
inductive PropCond where
  | idIn (ids : List (Option Rat))
  | priceGe (v : Option Rat)
  | priceLe (v : Option Rat)
  | bedsGe (v : Option Rat)
  | bathsGe (v : Option Rat)
  | sqftGe (v : Option Rat)
  | sqftLe (v : Option Rat)
  | typeEq (t : String)
  | amenitiesSupersetOf (xs : List String)
  | availableFromOn (d : JDate)
  | withinRadius (lon lat : Option Rat) (degrees : Rat)
  deriving DecidableEq, Repr

/-- Constructor tag of a condition, used to say "no predicate of this
parameter's kind was added". -/
def PropCond.kind : PropCond → Nat
  | .idIn _ => 0
  | .priceGe _ => 1
  | .priceLe _ => 2
  | .bedsGe _ => 3
  | .bathsGe _ => 4
  | .sqftGe _ => 5
  | .sqftLe _ => 6
  | .typeEq _ => 7
  | .amenitiesSupersetOf _ => 8
  | .availableFromOn _ => 9
  | .withinRadius _ _ _ => 10

/-- `1000 km` converted to degrees via 1° ≈ 111.32 km. -/
def radiusDegrees : Rat := 1000 / (11132 / 100)

def condFavoriteIds (p : PropertyQueryParams) : List PropCond :=
  if truthyStr p.favoriteIds then
    [.idIn ((jsSplit ',' (p.favoriteIds.getD "")).map jsNumber)]
  else []

def condPriceMin (p : PropertyQueryParams) : List PropCond :=
  if truthyStr p.priceMin then [.priceGe (jsNumber (p.priceMin.getD ""))] else []

def condPriceMax (p : PropertyQueryParams) : List PropCond :=
  if truthyStr p.priceMax then [.priceLe (jsNumber (p.priceMax.getD ""))] else []

def condBeds (p : PropertyQueryParams) : List PropCond :=
  if truthyStr p.beds && p.beds != some "any" then
    [.bedsGe (jsNumber (p.beds.getD ""))]
  else []

def condBaths (p : PropertyQueryParams) : List PropCond :=
  if truthyStr p.baths && p.baths != some "any" then
    [.bathsGe (jsNumber (p.baths.getD ""))]
  else []

def condSquareFeetMin (p : PropertyQueryParams) : List PropCond :=
  if truthyStr p.squareFeetMin then [.sqftGe (jsNumber (p.squareFeetMin.getD ""))] else []

def condSquareFeetMax (p : PropertyQueryParams) : List PropCond :=
  if truthyStr p.squareFeetMax then [.sqftLe (jsNumber (p.squareFeetMax.getD ""))] else []

def condPropertyType (p : PropertyQueryParams) : List PropCond :=
  if truthyStr p.propertyType && p.propertyType != some "any" then
    [.typeEq (p.propertyType.getD "")]
  else []

def condAmenities (p : PropertyQueryParams) : List PropCond :=
  if truthyStr p.amenities && p.amenities != some "any" then
    [.amenitiesSupersetOf (jsSplit ',' (p.amenities.getD ""))]
  else []

def condAvailableFrom (p : PropertyQueryParams) : List PropCond :=
  if truthyStr p.availableFrom then
    match jsParseDate (p.availableFrom.getD "") with
    | some d => [.availableFromOn d]
    | none => []
  else []

def condGeo (p : PropertyQueryParams) : List PropCond :=
  if truthyStr p.latitude && truthyStr p.longitude then
    [.withinRadius (jsParseFloat (p.longitude.getD "")) (jsParseFloat (p.latitude.getD ""))
      radiusDegrees]
  else []

/-- `whereConditions` of `getProperties`: each set parameter contributes
its predicate, in source order. -/
def whereConditions (p : PropertyQueryParams) : List PropCond :=
  condFavoriteIds p ++ condPriceMin p ++ condPriceMax p ++ condBeds p ++ condBaths p ++
    condSquareFeetMin p ++ condSquareFeetMax p ++ condPropertyType p ++ condAmenities p ++
    condAvailableFrom p ++ condGeo p

/-- One joined Property/Location row as seen by the raw query. -/
structure PropertyRow where
  id : Int
  pricePerMonth : Rat
  beds : Rat
  baths : Rat
  squareFeet : Rat
  propertyType : String
  amenities : List String
  lon : Rat
  lat : Rat
  deriving DecidableEq, Repr

/-- The tables the raw query reads: joined rows plus (propertyId,
startDate) lease pairs for the `EXISTS` subquery. -/
structure PropsDb where
  rows : List PropertyRow
  leases : List (Int × JDate)
  deriving DecidableEq, Repr

/-- SQL semantics of one predicate on one row; comparisons against a
`NaN`/missing operand are false. -/
def evalCond (db : PropsDb) (r : PropertyRow) : PropCond → Bool
  | .idIn ids => ids.any (fun i => i == some (r.id : Rat))
  | .priceGe v => match v with | some q => decide (q ≤ r.pricePerMonth) | none => false
  | .priceLe v => match v with | some q => decide (r.pricePerMonth ≤ q) | none => false
  | .bedsGe v => match v with | some q => decide (q ≤ r.beds) | none => false
  | .bathsGe v => match v with | some q => decide (q ≤ r.baths) | none => false
  | .sqftGe v => match v with | some q => decide (q ≤ r.squareFeet) | none => false
  | .sqftLe v => match v with | some q => decide (r.squareFeet ≤ q) | none => false
  | .typeEq t => r.propertyType == t
  | .amenitiesSupersetOf xs => xs.all (fun x => r.amenities.contains x)
  | .availableFromOn d => db.leases.any (fun pl => pl.1 == r.id && decide (jle pl.2 d))
  | .withinRadius lon lat degrees =>
    match lon, lat with
    | some lo, some la => decide ((r.lon - lo) ^ 2 + (r.lat - la) ^ 2 ≤ degrees ^ 2)
    | _, _ => false

/-- `getProperties`: the single read returning the rows satisfying the
conjunction of the built predicates (no conditions means no WHERE
clause). -/
def getProperties (db : PropsDb) (p : PropertyQueryParams) : List PropertyRow :=
  db.rows.filter (fun r => (whereConditions p).all (evalCond db r))

/-! ## Property creation pipeline (`createProperty`) -/

/-- A stored numeric column that may hold `NaN`. -/
inductive JNum where
  | nan
  | val (q : Rat)
  deriving DecidableEq, Repr

def jnum : Option Rat → JNum
  | none => .nan
  | some q => .val q

def jnumInt : Option Int → JNum
  | none => .nan
  | some i => .val (i : Rat)

/-- One entry of the geocoding response; `lon`/`lat` may be absent. -/
structure GeoEntry where
  lon : Option String
  lat : Option String
  deriving DecidableEq, Repr

/-- The multipart body of `POST /properties`; scalar fields arrive as
strings and may be absent. -/
structure CreatePropertyBody where
  address : String
  city : String
  state : String
  country : String
  postalCode : String
  managerCognitoId : String
  pricePerMonth : Option String
  securityDeposit : Option String
  applicationFee : Option String
  beds : Option String
  baths : Option String
  squareFeet : Option String
  amenities : Option String
  highlights : Option String
  isPetsAllowed : Option String
  isParkingIncluded : Option String
  deriving DecidableEq, Repr

/-- A persisted `Location` row. -/
structure LocationRow where
  id : Nat
  address : String
  city : String
  state : String
  country : String
  postalCode : String
  lon : JNum
  lat : JNum
  deriving DecidableEq, Repr

/-- A persisted `Property` row as written by `createProperty`. -/
structure NewProperty where
  id : Nat
  photoUrls : List String
  locationId : Nat
  managerCognitoId : String
  amenities : List String
  highlights : List String
  isPetsAllowed : Bool
  isParkingIncluded : Bool
  pricePerMonth : JNum
  securityDeposit : JNum
  applicationFee : JNum
  beds : JNum
  baths : JNum
  squareFeet : JNum
  deriving DecidableEq, Repr

/-- The tables written by the creation pipeline. -/
structure CreateDb where
  locations : List LocationRow
  newProperties : List NewProperty
  nextLocationId : Nat
  nextPropertyId : Nat
  deriving DecidableEq, Repr

/-- `geocodingResponse.data[0]?.lon && data[0]?.lat ? [parseFloat(lon),
parseFloat(lat)] : [0, 0]`. -/
def resolveCoordinates (geoData : List GeoEntry) : JNum × JNum :=
  let lonRaw := geoData.head?.bind GeoEntry.lon
  let latRaw := geoData.head?.bind GeoEntry.lat
  if truthyStr lonRaw && truthyStr latRaw then
    (jnum (jsParseFloat (lonRaw.getD "")), jnum (jsParseFloat (latRaw.getD "")))
  else (.val 0, .val 0)

/-- `typeof x === "string" ? x.split(",") : []`. -/
def splitCsv : Option String → List String
  | some s => jsSplit ',' s
  | none => []

/-- Outcome of `createProperty`. The spec's taxonomy names a
`ValidationFailed(field)` outcome; the constructor is present so the
claim can be stated, but the source has no code path producing it. -/
inductive CreatePropertyResult where
  | created (p : NewProperty) (loc : LocationRow)
  | validationFailed (field : String)
  deriving DecidableEq, Repr

/-- `createProperty` after the uploads: resolve coordinates, insert the
Location, insert the Property with the source's normalizations
(`parseFloat`/`parseInt` with no validation, `=== "true"` booleans,
comma-splitting). `photoUrls` are the collected upload URLs. -/
def createProperty (body : CreatePropertyBody) (photoUrls : List String)
    (geoData : List GeoEntry) (db : CreateDb) : CreatePropertyResult × CreateDb :=
  let coords := resolveCoordinates geoData
  let loc : LocationRow :=
    { id := db.nextLocationId, address := body.address, city := body.city,
      state := body.state, country := body.country, postalCode := body.postalCode,
      lon := coords.1, lat := coords.2 }
  let prop : NewProperty :=
    { id := db.nextPropertyId, photoUrls := photoUrls, locationId := loc.id,
      managerCognitoId := body.managerCognitoId,
      amenities := splitCsv body.amenities, highlights := splitCsv body.highlights,
      isPetsAllowed := body.isPetsAllowed == some "true",
      isParkingIncluded := body.isParkingIncluded == some "true",
      pricePerMonth := jnum (body.pricePerMonth.bind jsParseFloat),
      securityDeposit := jnum (body.securityDeposit.bind jsParseFloat),
      applicationFee := jnum (body.applicationFee.bind jsParseFloat),
      beds := jnumInt (body.beds.bind jsParseInt),
      baths := jnum (body.baths.bind jsParseFloat),
      squareFeet := jnumInt (body.squareFeet.bind jsParseInt) }
  (.created prop loc,
    { locations := db.locations ++ [loc],
      newProperties := db.newProperties ++ [prop],
      nextLocationId := db.nextLocationId + 1,
      nextPropertyId := db.nextPropertyId + 1 })

/-! ## Concrete instances used by witnesses and counterexamples -/

/-- A fixed "current date" for concrete runs. -/
def now0 : JDate := ⟨2023, 5, 1⟩

def prop1 : Property :=
  { id := 1, pricePerMonth := 1000, securityDeposit := 500,
    managerCognitoId := "m-1", tenantCognitoIds := [] }

def app1 : Application :=
  { id := 1, applicationDate := ⟨2023, 0, 1⟩, status := "Pending", name := "N",
    email := "e", phoneNumber := "p", message := "", propertyId := 1,
    tenantCognitoId := "t-1", leaseId := none }

/-- One pending application on one property, no leases yet. -/
def db0 : Db :=
  { properties := [prop1], applications := [app1], leases := [],
    nextLeaseId := 1, nextApplicationId := 2 }

/-- The lease the sample application's own lease reference points at. -/
def lease5 : Lease :=
  { id := 5, startDate := ⟨2023, 0, 1⟩, endDate := ⟨2024, 0, 1⟩, rent := 0,
    deposit := 0, propertyId := 7, tenantCognitoId := "t-9" }

/-- A later lease for the same tenant and property. -/
def lease9 : Lease :=
  { id := 9, startDate := ⟨2024, 5, 1⟩, endDate := ⟨2025, 5, 1⟩, rent := 0,
    deposit := 0, propertyId := 7, tenantCognitoId := "t-9" }

/-- An application whose lease reference points at `lease5` while a later
matching lease `lease9` exists. -/
def appW : Application :=
  { id := 2, applicationDate := ⟨2023, 0, 1⟩, status := "Approved", name := "N",
    email := "e", phoneNumber := "p", message := "", propertyId := 7,
    tenantCognitoId := "t-9", leaseId := some 5 }

def dbW : Db :=
  { properties := [], applications := [appW], leases := [lease5, lease9],
    nextLeaseId := 10, nextApplicationId := 3 }

def row1 : PropertyRow :=
  { id := 1, pricePerMonth := 1000, beds := 2, baths := 1, squareFeet := 800,
    propertyType := "Apartment", amenities := ["pool"], lon := 10, lat := 20 }

def dbP : PropsDb := { rows := [row1], leases := [] }

/-- A creation request whose price field cannot be parsed as a number. -/
def badBody : CreatePropertyBody :=
  { address := "1 Main St", city := "X", state := "Y", country := "Z",
    postalCode := "00000", managerCognitoId := "m-1",
    pricePerMonth := some "abc", securityDeposit := some "500",
    applicationFee := some "25", beds := some "2", baths := some "1.5",
    squareFeet := some "800", amenities := some "pool", highlights := none,
    isPetsAllowed := some "true", isParkingIncluded := some "false" }

/-- A geocoding response carrying both coordinates. -/
def geoOk : List GeoEntry := [⟨some "10.5", some "20.25"⟩]

/-- A geocoding response whose single entry lacks the longitude. -/
def geoNoLon : List GeoEntry := [⟨none, some "20.25"⟩]

def emptyCreateDb : CreateDb :=
  { locations := [], newProperties := [], nextLocationId := 1, nextPropertyId := 1 }

/-- Whether a creation outcome is the spec's `ValidationFailed`. -/
def CreatePropertyResult.isValidationFailed : CreatePropertyResult → Bool
  | .validationFailed _ => true
  | .created _ _ => false

/-- The persisted price of a `created` outcome. -/
def CreatePropertyResult.createdPricePerMonth : CreatePropertyResult → Option JNum
  | .created p _ => some p.pricePerMonth
  | .validationFailed _ => none

/-! ## Theorems -/

theorem daysInMonth_ge (y m : Int) : 28 ≤ daysInMonth y m := by
  unfold daysInMonth; split_ifs <;> omega

theorem daysInMonth_le (y m : Int) : daysInMonth y m ≤ 31 := by
  unfold daysInMonth; split_ifs <;> omega

theorem jsNormalizeDate_valid (y m d : Int)
    (hm0 : 0 ≤ m) (hm11 : m ≤ 11) (hd1 : 1 ≤ d) (hd31 : d ≤ 31) :
    (jsNormalizeDate y m d).valid := by
  have g1 := daysInMonth_ge y m
  have g2 := daysInMonth_ge (y + 1) 0
  have g3 := daysInMonth_ge y (m + 1)
  unfold jsNormalizeDate
  split_ifs with h1 h2 <;> simp [JDate.valid] <;> omega

theorem jsNormalizeDate_monthIdx (y m d : Int) :
    12 * y + m ≤ monthIdx (jsNormalizeDate y m d) ∧
    monthIdx (jsNormalizeDate y m d) ≤ 12 * y + m + 1 := by
  unfold jsNormalizeDate monthIdx
  split_ifs <;> simp <;> omega

theorem jsAddOneMonth_valid (dt : JDate) (h : dt.valid) : (jsAddOneMonth dt).valid := by
  obtain ⟨h0, h11, hd1, hdm⟩ := h
  have g2 := daysInMonth_le dt.year dt.month
  unfold jsAddOneMonth
  split_ifs with hm <;>
    exact jsNormalizeDate_valid _ _ _ (by omega) (by omega) (by omega) (by omega)

theorem monthIdx_jsAddOneMonth (dt : JDate) :
    monthIdx dt + 1 ≤ monthIdx (jsAddOneMonth dt) ∧
    monthIdx (jsAddOneMonth dt) ≤ monthIdx dt + 2 := by
  unfold jsAddOneMonth
  split_ifs with hm
  · have := jsNormalizeDate_monthIdx (dt.year + 1) 0 dt.day
    unfold monthIdx at *
    omega
  · have := jsNormalizeDate_monthIdx dt.year (dt.month + 1) dt.day
    unfold monthIdx at *
    omega

theorem jle_monthIdx {a b : JDate} (ha : a.valid) (hb : b.valid) (h : jle a b) :
    monthIdx a ≤ monthIdx b := by
  obtain ⟨a0, a11, _, _⟩ := ha
  obtain ⟨b0, b11, _, _⟩ := hb
  unfold jle at h
  unfold monthIdx
  omega

theorem monthIdx_not_jle {a b : JDate} (ha : a.valid) (hb : b.valid)
    (h : monthIdx b < monthIdx a) : ¬ jle a b := by
  intro hle
  exact absurd (jle_monthIdx ha hb hle) (by omega)

/-- The loop exits with a date strictly after `today`, and the result is
reached by advancing one month at a time from `d`, every intermediate
date being ≤ `today`. -/
theorem advanceMonths_spec (today : JDate) (ht : today.valid) :
    ∀ (k : Nat) (d : JDate), d.valid →
      (monthIdx today + 1 - monthIdx d).toNat ≤ k →
      ¬ jle (advanceMonths k today d) today ∧
      ∃ n, advanceMonths k today d = iterMonths n d ∧
        ∀ j < n, jle (iterMonths j d) today := by
  intro k
  induction k with
  | zero =>
    intro d hd hfuel
    have : monthIdx today < monthIdx d := by omega
    refine ⟨monthIdx_not_jle hd ht this, 0, rfl, by omega⟩
  | succ k ih =>
    intro d hd hfuel
    by_cases hle : jle d today
    · have hd' := jsAddOneMonth_valid d hd
      have hidx := monthIdx_jsAddOneMonth d
      have hmono := jle_monthIdx hd ht hle
      have hfuel' : (monthIdx today + 1 - monthIdx (jsAddOneMonth d)).toNat ≤ k := by
        omega
      obtain ⟨hexit, n, heq, hall⟩ := ih (jsAddOneMonth d) hd' hfuel'
      refine ⟨?_, n + 1, ?_, ?_⟩
      · simpa [advanceMonths, hle] using hexit
      · simpa [advanceMonths, hle, iterMonths] using heq
      · intro j hj
        match j with
        | 0 => exact hle
        | j + 1 => exact hall j (by omega)
    · refine ⟨?_, 0, ?_, by omega⟩
      · simp [advanceMonths, hle]
      · simp [advanceMonths, hle, iterMonths]

theorem calculateNextPaymentDate_spec (startDate today : JDate)
    (hs : startDate.valid) (ht : today.valid) :
    ¬ jle (calculateNextPaymentDate startDate today) today ∧
    ∃ n, calculateNextPaymentDate startDate today = iterMonths n startDate ∧
      ∀ j < n, jle (iterMonths j startDate) today := by
  exact advanceMonths_spec today ht _ startDate hs (by unfold monthIdx; omega)

/-- C3: for a lease start date not after today, the next payment date is
obtained by advancing the start one month at a time until it strictly
exceeds today, hence is strictly in the future; for start 2023-01-15 and
today 2023-03-20 (JS months 0-indexed) the result is 2023-04-15. -/
theorem claim_C3 (startDate today : JDate)
    (hs : startDate.valid) (ht : today.valid) (_hle : jle startDate today) :
    jlt today (calculateNextPaymentDate startDate today) ∧
    (∃ n, calculateNextPaymentDate startDate today = iterMonths n startDate ∧
      ∀ j < n, jle (iterMonths j startDate) today) ∧
    calculateNextPaymentDate ⟨2023, 0, 15⟩ ⟨2023, 2, 20⟩ = ⟨2023, 3, 15⟩ := by
  obtain ⟨hexit, hchar⟩ := calculateNextPaymentDate_spec startDate today hs ht
  exact ⟨(not_jle_iff_jlt _ _).mp hexit, hchar, by decide⟩

/-- C3 witness: the theorem instantiated at the spec's concrete dates. -/
theorem claim_C3_witness :
    jlt ⟨2023, 2, 20⟩ (calculateNextPaymentDate ⟨2023, 0, 15⟩ ⟨2023, 2, 20⟩) ∧
    calculateNextPaymentDate ⟨2023, 0, 15⟩ ⟨2023, 2, 20⟩ = ⟨2023, 3, 15⟩ := by
  obtain ⟨h1, _, h3⟩ := claim_C3 ⟨2023, 0, 15⟩ ⟨2023, 2, 20⟩
    (by decide) (by decide) (by decide)
  exact ⟨h1, h3⟩


/-! ### Shared lemmas about the database writes -/

theorem find?_map_ite {α : Type} (p : α → Bool) (g : α → α)
    (hg : ∀ a, p (g a) = p a) (l : List α) :
    List.find? p (l.map (fun a => if p a then g a else a)) =
      (List.find? p l).map g := by
  induction l with
  | nil => rfl
  | cons a t ih =>
    cases hpa : p a with
    | true => simp [List.find?, hpa, hg]
    | false => simp [List.find?, hpa, ih]

theorem connectTenant_id (p : Property) (t : String) : (connectTenant p t).id = p.id := by
  unfold connectTenant; split_ifs <;> rfl

theorem mem_connectTenant (p : Property) (t : String) :
    t ∈ (connectTenant p t).tenantCognitoIds := by
  unfold connectTenant
  split_ifs with h
  · exact List.mem_of_elem_eq_true h
  · simp

theorem approval_applications (now : JDate) (id : Nat) (st : String) (lid : Nat)
    (app : Application) (prop : Property) (db : Db) :
    (runWrites (approvalWrites now id st lid app prop) db).applications =
      db.applications.map
        (fun a => if a.id == id then { a with status := st, leaseId := some lid } else a) := rfl

theorem approval_leases (now : JDate) (id : Nat) (st : String) (lid : Nat)
    (app : Application) (prop : Property) (db : Db) :
    (runWrites (approvalWrites now id st lid app prop) db).leases =
      db.leases ++ [approvalLease now lid app prop] := rfl

theorem approval_properties (now : JDate) (id : Nat) (st : String) (lid : Nat)
    (app : Application) (prop : Property) (db : Db) :
    (runWrites (approvalWrites now id st lid app prop) db).properties =
      db.properties.map
        (fun p => if p.id == app.propertyId then connectTenant p app.tenantCognitoId else p) := rfl

theorem updateApplicationStatus_approved (now : JDate) (db : Db) (id : Nat)
    (app : Application) (prop : Property)
    (hfind : findApplication db id = some app)
    (hprop : findProperty db app.propertyId = some prop) :
    updateApplicationStatus now db id "Approved" =
      .ok (runWrites (approvalWrites now id "Approved" db.nextLeaseId app prop) db)
        (findApplication
          (runWrites (approvalWrites now id "Approved" db.nextLeaseId app prop) db) id) := by
  unfold updateApplicationStatus
  rw [hfind]
  dsimp only
  rw [if_pos rfl, hprop]

theorem updateApplicationStatus_other (now : JDate) (db : Db) (id : Nat)
    (app : Application) (status : String)
    (hfind : findApplication db id = some app) (hst : status ≠ "Approved") :
    updateApplicationStatus now db id status =
      .ok { db with applications := db.applications.map (fun a => if a.id == id then { a with status := status } else a) }
        (findApplication
          { db with applications := db.applications.map (fun a => if a.id == id then { a with status := status } else a) } id) := by
  unfold updateApplicationStatus
  rw [hfind]
  dsimp only
  rw [if_neg hst]

/-- C1: approving an existing application appends exactly one new lease
(rent/deposit copied from the property, id fresh hence distinct from any
application-time lease), links the tenant into the property's occupancy
set, and points the application's status and lease reference at the new
lease. -/
theorem claim_C1 (now : JDate) (db : Db) (id : Nat) (app : Application) (prop : Property)
    (hfind : findApplication db id = some app)
    (hprop : findProperty db app.propertyId = some prop)
    (hfresh : ∀ l ∈ db.leases, l.id < db.nextLeaseId) :
    ∃ db' app', updateApplicationStatus now db id "Approved" = .ok db' (some app') ∧
      db'.leases = db.leases ++ [approvalLease now db.nextLeaseId app prop] ∧
      (approvalLease now db.nextLeaseId app prop).rent = prop.pricePerMonth ∧
      (approvalLease now db.nextLeaseId app prop).deposit = prop.securityDeposit ∧
      (∀ l ∈ db.leases, l.id ≠ (approvalLease now db.nextLeaseId app prop).id) ∧
      (∃ p', findProperty db' app.propertyId = some p' ∧
        app.tenantCognitoId ∈ p'.tenantCognitoIds) ∧
      app' = { app with status := "Approved", leaseId := some db.nextLeaseId } ∧
      app'.status = "Approved" ∧
      app'.leaseId = some (approvalLease now db.nextLeaseId app prop).id := by
  have happ : findApplication
      (runWrites (approvalWrites now id "Approved" db.nextLeaseId app prop) db) id
      = some { app with status := "Approved", leaseId := some db.nextLeaseId } := by
    unfold findApplication
    rw [approval_applications,
      find?_map_ite (fun a => a.id == id)
        (fun a => { a with status := "Approved", leaseId := some db.nextLeaseId })
        (fun a => rfl) db.applications]
    unfold findApplication at hfind
    rw [hfind]
    rfl
  have hpr : findProperty
      (runWrites (approvalWrites now id "Approved" db.nextLeaseId app prop) db) app.propertyId
      = some (connectTenant prop app.tenantCognitoId) := by
    unfold findProperty
    rw [approval_properties,
      find?_map_ite (fun p => p.id == app.propertyId)
        (fun p => connectTenant p app.tenantCognitoId)
        (fun p => by simp [connectTenant_id]) db.properties]
    unfold findProperty at hprop
    rw [hprop]
    rfl
  refine ⟨runWrites (approvalWrites now id "Approved" db.nextLeaseId app prop) db,
    { app with status := "Approved", leaseId := some db.nextLeaseId },
    ?_, approval_leases now id "Approved" db.nextLeaseId app prop db, rfl, rfl,
    ?_, ⟨connectTenant prop app.tenantCognitoId, hpr, mem_connectTenant prop app.tenantCognitoId⟩,
    rfl, rfl, rfl⟩
  · rw [updateApplicationStatus_approved now db id app prop hfind hprop, happ]
  · intro l hl
    have := hfresh l hl
    show l.id ≠ db.nextLeaseId
    omega

/-- C1 witness: the theorem at the sample database, hypotheses discharged
concretely. -/
theorem claim_C1_witness :
    ∃ db' app', updateApplicationStatus now0 db0 1 "Approved" = .ok db' (some app') ∧
      db'.leases = db0.leases ++ [approvalLease now0 db0.nextLeaseId app1 prop1] ∧
      (approvalLease now0 db0.nextLeaseId app1 prop1).rent = prop1.pricePerMonth ∧
      (approvalLease now0 db0.nextLeaseId app1 prop1).deposit = prop1.securityDeposit ∧
      (∀ l ∈ db0.leases, l.id ≠ (approvalLease now0 db0.nextLeaseId app1 prop1).id) ∧
      (∃ p', findProperty db' app1.propertyId = some p' ∧
        app1.tenantCognitoId ∈ p'.tenantCognitoIds) ∧
      app' = { app1 with status := "Approved", leaseId := some db0.nextLeaseId } ∧
      app'.status = "Approved" ∧
      app'.leaseId = some (approvalLease now0 db0.nextLeaseId app1 prop1).id :=
  claim_C1 now0 db0 1 app1 prop1 (by decide) (by decide) (by decide)

/-- C6: updating an existing application's status with any value other
than "Approved" changes only that application's status field: no lease is
created, the lease reference and all other tables are unchanged. -/
theorem claim_C6 (now : JDate) (db : Db) (id : Nat) (status : String) (app : Application)
    (hfind : findApplication db id = some app) (hst : status ≠ "Approved") :
    ∃ db' app', updateApplicationStatus now db id status = .ok db' (some app') ∧
      app' = { app with status := status } ∧
      app'.leaseId = app.leaseId ∧
      db'.leases = db.leases ∧
      db'.properties = db.properties ∧
      db'.nextLeaseId = db.nextLeaseId ∧
      (∀ a ∈ db.applications, a.id ≠ id → a ∈ db'.applications) := by
  have happ : findApplication
      { db with applications := db.applications.map (fun a => if a.id == id then { a with status := status } else a) } id
      = some { app with status := status } := by
    unfold findApplication
    dsimp only
    rw [find?_map_ite (fun a => a.id == id)
      (fun a => { a with status := status }) (fun a => rfl) db.applications]
    unfold findApplication at hfind
    rw [hfind]
    rfl
  refine ⟨{ db with applications := db.applications.map (fun a => if a.id == id then { a with status := status } else a) },
    { app with status := status },
    ?_, rfl, rfl, rfl, rfl, rfl, ?_⟩
  · rw [updateApplicationStatus_other now db id app status hfind hst, happ]
  · intro a ha hne
    have hb : (a.id == id) = false := by simpa using hne
    have hfix : (if a.id == id then { a with status := status } else a) = a := by
      rw [hb]; rfl
    exact hfix ▸ List.mem_map_of_mem _ ha

/-- C6 witness: denying the sample application. -/
theorem claim_C6_witness :
    ∃ db' app', updateApplicationStatus now0 db0 1 "Denied" = .ok db' (some app') ∧
      app' = { app1 with status := "Denied" } ∧
      app'.leaseId = app1.leaseId ∧
      db'.leases = db0.leases ∧
      db'.properties = db0.properties ∧
      db'.nextLeaseId = db0.nextLeaseId ∧
      (∀ a ∈ db0.applications, a.id ≠ 1 → a ∈ db'.applications) :=
  claim_C6 now0 db0 1 "Denied" app1 (by decide) (by decide)

/-- C2: the claim that both paths run their multi-record writes inside a
single transaction fails on the approval path, which the source runs with
no `prisma.$transaction`. At the sample database, approving application 1
with only the first write committed (the `lease.create` succeeded, the
following write failed) leaves an orphaned lease referenced by no
application while the application still reads "Pending"; the creation
path, by contrast, is transactional and rolls back to the unchanged
database. -/
theorem claim_C2 :
    (∃ l ∈ (updateApplicationStatusOnFailure now0 db0 1 "Approved" 1).leases,
      ∀ a ∈ (updateApplicationStatusOnFailure now0 db0 1 "Approved" 1).applications,
        a.leaseId ≠ some l.id) ∧
    (findApplication (updateApplicationStatusOnFailure now0 db0 1 "Approved" 1) 1).map
      Application.status = some "Pending" ∧
    createApplicationOnFailure db0 = db0 := by
  refine ⟨⟨approvalLease now0 1 app1 prop1, ?_, ?_⟩, ?_, rfl⟩
  · decide
  · decide
  · decide

theorem findFirst_none_iff (ls : List Lease) :
    findFirstLeaseByStartDateDesc ls = none ↔ ls = [] := by
  cases ls with
  | nil => simp [findFirstLeaseByStartDateDesc]
  | cons a t =>
    simp only [findFirstLeaseByStartDateDesc]
    cases findFirstLeaseByStartDateDesc t with
    | none => simp
    | some b => by_cases h : jlt a.startDate b.startDate <;> simp [h]

theorem findFirst_mem_max :
    ∀ (ls : List Lease) (l : Lease), findFirstLeaseByStartDateDesc ls = some l →
      l ∈ ls ∧ ∀ x ∈ ls, ¬ jlt l.startDate x.startDate := by
  intro ls
  induction ls with
  | nil => intro l h; simp [findFirstLeaseByStartDateDesc] at h
  | cons a t ih =>
    intro l h
    simp only [findFirstLeaseByStartDateDesc] at h
    cases hrec : findFirstLeaseByStartDateDesc t with
    | none =>
      rw [hrec] at h
      simp at h
      subst h
      have ht : t = [] := (findFirst_none_iff t).mp hrec
      subst ht
      refine ⟨by simp, ?_⟩
      intro x hx
      simp at hx
      subst hx
      unfold jlt
      omega
    | some b =>
      rw [hrec] at h
      dsimp only at h
      obtain ⟨hbm, hbmax⟩ := ih b hrec
      by_cases hab : jlt a.startDate b.startDate
      · rw [if_pos hab] at h
        simp at h
        subst h
        refine ⟨List.mem_cons_of_mem _ hbm, ?_⟩
        intro x hx
        rcases List.mem_cons.mp hx with rfl | hx'
        · unfold jlt at hab ⊢; omega
        · exact hbmax x hx'
      · rw [if_neg hab] at h
        simp at h
        subst h
        refine ⟨List.mem_cons_self _ _, ?_⟩
        intro x hx
        rcases List.mem_cons.mp hx with rfl | hx'
        · unfold jlt; omega
        · have := hbmax x hx'
          unfold jlt at hab this ⊢
          omega

/-- C9: the lease attached to a listed application is a lease matching the
application's tenant and property with maximal (most recent) start date —
computed independently of the application's own lease reference — and the
lease field is null exactly when no matching lease exists; its
`nextPaymentDate` is computed from that lease's start date. -/
theorem claim_C9 (now : JDate) (db : Db) (a : Application) :
    (attachedLease db a = none ↔ leasesMatching db a = []) ∧
    (∀ l, attachedLease db a = some l →
      l ∈ leasesMatching db a ∧ ∀ x ∈ leasesMatching db a, ¬ jlt l.startDate x.startDate) ∧
    (∀ x : Option Nat, attachedLease db { a with leaseId := x } = attachedLease db a) ∧
    formatApplicationLease now db a =
      (attachedLease db a).map (fun l => ⟨l, calculateNextPaymentDate l.startDate now⟩) := by
  refine ⟨findFirst_none_iff _, ?_, fun x => rfl, rfl⟩
  intro l h
  exact findFirst_mem_max _ l h

/-- C9 witness: in `dbW` the application's own lease reference points at
`lease5`, yet the attached lease is the later `lease9`. -/
theorem claim_C9_witness :
    lease9 ∈ leasesMatching dbW appW ∧
    ¬ jlt lease9.startDate lease5.startDate ∧
    appW.leaseId = some lease5.id ∧
    lease9.id ≠ lease5.id := by
  have h := (claim_C9 now0 dbW appW).2.1 lease9 (by decide)
  exact ⟨h.1, h.2 lease5 (by decide), by decide, by decide⟩

/-- C10: when `userId` or `userType` is missing (or empty, hence falsy),
or `userType` is neither "tenant" nor "manager", the where-clause stays
empty and the list returns every application, unscoped by caller. -/
theorem claim_C10 (db : Db) (userId userType : Option String)
    (h : truthyStr userId = false ∨ truthyStr userType = false ∨
      (userType ≠ some "tenant" ∧ userType ≠ some "manager")) :
    listApplicationsWhere userId userType = .all ∧
    selectApplications db userId userType = db.applications := by
  have hall : listApplicationsWhere userId userType = .all := by
    unfold listApplicationsWhere
    rcases h with h | h | ⟨h1, h2⟩
    · simp [h]
    · simp [h]
    · by_cases hb : truthyStr userId && truthyStr userType
      · rw [if_pos hb]
        rw [if_neg (by simp [h1]), if_neg (by simp [h2])]
      · rw [if_neg hb]
  refine ⟨hall, ?_⟩
  unfold selectApplications
  rw [hall]
  exact List.filter_eq_self.mpr (fun a _ => rfl)

/-- C10 witness: a request with both parameters missing returns the whole
table. -/
theorem claim_C10_witness :
    listApplicationsWhere none none = .all ∧
    selectApplications db0 none none = db0.applications :=
  claim_C10 db0 none none (Or.inl rfl)

/-- C5 counterexample: with allow-list ["Manager"], a token whose role is
exactly "Manager" — literally an element of the list — is rejected with
403, because the source lowercases the role but not the list entries; so
the gate is not a case-insensitive membership test for every allow-list. -/
theorem claim_C5_counterexample :
    authMiddleware ["Manager"] demoDecode (some "Bearer t.Manager") =
      .forbidden403 "user-M" "Manager" ∧
    "Manager" ∈ ["Manager"] := by
  exact ⟨by decide, by decide⟩

/-- C5 (amended): the gate extracts the role claim (default ""), lowercases
it, and admits exactly when the lowercased role is literally an element of
the allow-list — case-insensitive in the token's role only. On the
manager-only route (allow-list ["manager"]) a "tenant" token is rejected
with Forbidden and a "manager" token is admitted. -/
theorem claim_C5 (allowedRoles : List String) (decode : String → Option DecodedToken)
    (authHeader : Option String) (t : String) (d : DecodedToken)
    (htok : extractBearerToken authHeader = some t) (hne : t ≠ "")
    (hdec : decode t = some d) :
    (allowedRoles.contains (jsToLowerCase (d.customRole.getD "")) = true →
      authMiddleware allowedRoles decode authHeader = .proceed d.sub (d.customRole.getD "")) ∧
    (allowedRoles.contains (jsToLowerCase (d.customRole.getD "")) = false →
      authMiddleware allowedRoles decode authHeader = .forbidden403 d.sub (d.customRole.getD "")) ∧
    authMiddleware ["manager"] demoDecode (some "Bearer t.tenant") =
      .forbidden403 "user-t" "tenant" ∧
    authMiddleware ["manager"] demoDecode (some "Bearer t.manager") =
      .proceed "user-m" "manager" := by
  have hbase : ∀ (r : AuthOutcome → Prop),
      (r (if allowedRoles.contains (jsToLowerCase (d.customRole.getD ""))
          then .proceed d.sub (d.customRole.getD "")
          else .forbidden403 d.sub (d.customRole.getD ""))) →
      r (authMiddleware allowedRoles decode authHeader) := by
    intro r hr
    unfold authMiddleware
    rw [htok]
    dsimp only
    rw [if_neg hne, hdec]
    dsimp only
    exact hr
  refine ⟨?_, ?_, by decide, by decide⟩
  · intro hc
    exact hbase (fun o => o = .proceed d.sub (d.customRole.getD "")) (by rw [if_pos hc])
  · intro hc
    exact hbase (fun o => o = .forbidden403 d.sub (d.customRole.getD "")) (by rw [hc]; rfl)

/-- C5 witness: the amended theorem at the manager route with a manager
token. -/
theorem claim_C5_witness :
    authMiddleware ["manager"] demoDecode (some "Bearer t.manager") =
      .proceed "user-m" "manager" :=
  (claim_C5 ["manager"] demoDecode (some "Bearer t.manager") "t.manager"
    ⟨"user-m", some "manager"⟩ (by decide) (by decide) (by decide)).1 (by decide)

theorem mem_condFavoriteIds (p : PropertyQueryParams) (c : PropCond)
    (h : c ∈ condFavoriteIds p) : c.kind = 0 ∧ truthyStr p.favoriteIds = true := by
  unfold condFavoriteIds at h
  split_ifs at h with hg
  · simp at h; subst h; exact ⟨rfl, hg⟩
  · simp at h

theorem mem_condPriceMin (p : PropertyQueryParams) (c : PropCond)
    (h : c ∈ condPriceMin p) : c.kind = 1 ∧ truthyStr p.priceMin = true := by
  unfold condPriceMin at h
  split_ifs at h with hg
  · simp at h; subst h; exact ⟨rfl, hg⟩
  · simp at h

theorem mem_condPriceMax (p : PropertyQueryParams) (c : PropCond)
    (h : c ∈ condPriceMax p) : c.kind = 2 ∧ truthyStr p.priceMax = true := by
  unfold condPriceMax at h
  split_ifs at h with hg
  · simp at h; subst h; exact ⟨rfl, hg⟩
  · simp at h

theorem mem_condBeds (p : PropertyQueryParams) (c : PropCond)
    (h : c ∈ condBeds p) :
    c.kind = 3 ∧ (truthyStr p.beds && (p.beds != some "any")) = true := by
  unfold condBeds at h
  split_ifs at h with hg
  · simp at h; subst h; exact ⟨rfl, hg⟩
  · simp at h

theorem mem_condBaths (p : PropertyQueryParams) (c : PropCond)
    (h : c ∈ condBaths p) :
    c.kind = 4 ∧ (truthyStr p.baths && (p.baths != some "any")) = true := by
  unfold condBaths at h
  split_ifs at h with hg
  · simp at h; subst h; exact ⟨rfl, hg⟩
  · simp at h

theorem mem_condSquareFeetMin (p : PropertyQueryParams) (c : PropCond)
    (h : c ∈ condSquareFeetMin p) : c.kind = 5 ∧ truthyStr p.squareFeetMin = true := by
  unfold condSquareFeetMin at h
  split_ifs at h with hg
  · simp at h; subst h; exact ⟨rfl, hg⟩
  · simp at h

theorem mem_condSquareFeetMax (p : PropertyQueryParams) (c : PropCond)
    (h : c ∈ condSquareFeetMax p) : c.kind = 6 ∧ truthyStr p.squareFeetMax = true := by
  unfold condSquareFeetMax at h
  split_ifs at h with hg
  · simp at h; subst h; exact ⟨rfl, hg⟩
  · simp at h

theorem mem_condPropertyType (p : PropertyQueryParams) (c : PropCond)
    (h : c ∈ condPropertyType p) :
    c.kind = 7 ∧ (truthyStr p.propertyType && (p.propertyType != some "any")) = true := by
  unfold condPropertyType at h
  split_ifs at h with hg
  · simp at h; subst h; exact ⟨rfl, hg⟩
  · simp at h

theorem mem_condAmenities (p : PropertyQueryParams) (c : PropCond)
    (h : c ∈ condAmenities p) :
    c.kind = 8 ∧ (truthyStr p.amenities && (p.amenities != some "any")) = true := by
  unfold condAmenities at h
  split_ifs at h with hg
  · simp at h; subst h; exact ⟨rfl, hg⟩
  · simp at h

theorem mem_condAvailableFrom (p : PropertyQueryParams) (c : PropCond)
    (h : c ∈ condAvailableFrom p) : c.kind = 9 ∧ truthyStr p.availableFrom = true := by
  unfold condAvailableFrom at h
  split_ifs at h with hg
  · cases hd : jsParseDate (p.availableFrom.getD "") <;> rw [hd] at h <;> simp at h
    subst h; exact ⟨rfl, hg⟩
  · simp at h

theorem mem_condGeo (p : PropertyQueryParams) (c : PropCond)
    (h : c ∈ condGeo p) :
    c.kind = 10 ∧ (truthyStr p.latitude && truthyStr p.longitude) = true := by
  unfold condGeo at h
  split_ifs at h with hg
  · simp at h; subst h; exact ⟨rfl, hg⟩
  · simp at h

theorem kind_mem_whereConditions (p : PropertyQueryParams) (c : PropCond)
    (h : c ∈ whereConditions p) :
    (c.kind = 0 ∧ truthyStr p.favoriteIds = true) ∨
    (c.kind = 1 ∧ truthyStr p.priceMin = true) ∨
    (c.kind = 2 ∧ truthyStr p.priceMax = true) ∨
    (c.kind = 3 ∧ (truthyStr p.beds && (p.beds != some "any")) = true) ∨
    (c.kind = 4 ∧ (truthyStr p.baths && (p.baths != some "any")) = true) ∨
    (c.kind = 5 ∧ truthyStr p.squareFeetMin = true) ∨
    (c.kind = 6 ∧ truthyStr p.squareFeetMax = true) ∨
    (c.kind = 7 ∧ (truthyStr p.propertyType && (p.propertyType != some "any")) = true) ∨
    (c.kind = 8 ∧ (truthyStr p.amenities && (p.amenities != some "any")) = true) ∨
    (c.kind = 9 ∧ truthyStr p.availableFrom = true) ∨
    (c.kind = 10 ∧ (truthyStr p.latitude && truthyStr p.longitude) = true) := by
  unfold whereConditions at h
  simp only [List.mem_append] at h
  rcases h with ((((((((((h | h) | h) | h) | h) | h) | h) | h) | h) | h) | h)
  · exact Or.inl (mem_condFavoriteIds p c h)
  · exact Or.inr (Or.inl (mem_condPriceMin p c h))
  · exact Or.inr (Or.inr (Or.inl (mem_condPriceMax p c h)))
  · exact Or.inr (Or.inr (Or.inr (Or.inl (mem_condBeds p c h))))
  · exact Or.inr (Or.inr (Or.inr (Or.inr (Or.inl (mem_condBaths p c h)))))
  · exact Or.inr (Or.inr (Or.inr (Or.inr (Or.inr (Or.inl (mem_condSquareFeetMin p c h))))))
  · exact Or.inr (Or.inr (Or.inr (Or.inr (Or.inr (Or.inr (Or.inl (mem_condSquareFeetMax p c h)))))))
  · exact Or.inr (Or.inr (Or.inr (Or.inr (Or.inr (Or.inr (Or.inr (Or.inl (mem_condPropertyType p c h))))))))
  · exact Or.inr (Or.inr (Or.inr (Or.inr (Or.inr (Or.inr (Or.inr (Or.inr (Or.inl (mem_condAmenities p c h)))))))))
  · exact Or.inr (Or.inr (Or.inr (Or.inr (Or.inr (Or.inr (Or.inr (Or.inr (Or.inr (Or.inl (mem_condAvailableFrom p c h))))))))))
  · exact Or.inr (Or.inr (Or.inr (Or.inr (Or.inr (Or.inr (Or.inr (Or.inr (Or.inr (Or.inr (mem_condGeo p c h))))))))))

/-- C4: a filter parameter left unset contributes no predicate of its kind
to the where-conditions, and with every parameter unset the condition list
is empty, so the query returns the same rows as the unfiltered query. -/
theorem claim_C4 (db : PropsDb) (p : PropertyQueryParams) :
    (p.favoriteIds = none → ∀ c ∈ whereConditions p, c.kind ≠ 0) ∧
    (p.priceMin = none → ∀ c ∈ whereConditions p, c.kind ≠ 1) ∧
    (p.priceMax = none → ∀ c ∈ whereConditions p, c.kind ≠ 2) ∧
    (p.beds = none → ∀ c ∈ whereConditions p, c.kind ≠ 3) ∧
    (p.baths = none → ∀ c ∈ whereConditions p, c.kind ≠ 4) ∧
    (p.squareFeetMin = none → ∀ c ∈ whereConditions p, c.kind ≠ 5) ∧
    (p.squareFeetMax = none → ∀ c ∈ whereConditions p, c.kind ≠ 6) ∧
    (p.propertyType = none → ∀ c ∈ whereConditions p, c.kind ≠ 7) ∧
    (p.amenities = none → ∀ c ∈ whereConditions p, c.kind ≠ 8) ∧
    (p.availableFrom = none → ∀ c ∈ whereConditions p, c.kind ≠ 9) ∧
    (p.latitude = none ∨ p.longitude = none → ∀ c ∈ whereConditions p, c.kind ≠ 10) ∧
    (p = noParams → whereConditions p = [] ∧ getProperties db p = db.rows) := by
  refine ⟨?_, ?_, ?_, ?_, ?_, ?_, ?_, ?_, ?_, ?_, ?_, ?_⟩
  case _ => intro h c hc; rcases kind_mem_whereConditions p c hc with
      ⟨hk,ht⟩|⟨hk,ht⟩|⟨hk,ht⟩|⟨hk,ht⟩|⟨hk,ht⟩|⟨hk,ht⟩|⟨hk,ht⟩|⟨hk,ht⟩|⟨hk,ht⟩|⟨hk,ht⟩|⟨hk,ht⟩ <;>
    simp_all [truthyStr]
  case _ => intro h c hc; rcases kind_mem_whereConditions p c hc with
      ⟨hk,ht⟩|⟨hk,ht⟩|⟨hk,ht⟩|⟨hk,ht⟩|⟨hk,ht⟩|⟨hk,ht⟩|⟨hk,ht⟩|⟨hk,ht⟩|⟨hk,ht⟩|⟨hk,ht⟩|⟨hk,ht⟩ <;>
    simp_all [truthyStr]
  case _ => intro h c hc; rcases kind_mem_whereConditions p c hc with
      ⟨hk,ht⟩|⟨hk,ht⟩|⟨hk,ht⟩|⟨hk,ht⟩|⟨hk,ht⟩|⟨hk,ht⟩|⟨hk,ht⟩|⟨hk,ht⟩|⟨hk,ht⟩|⟨hk,ht⟩|⟨hk,ht⟩ <;>
    simp_all [truthyStr]
  case _ => intro h c hc; rcases kind_mem_whereConditions p c hc with
      ⟨hk,ht⟩|⟨hk,ht⟩|⟨hk,ht⟩|⟨hk,ht⟩|⟨hk,ht⟩|⟨hk,ht⟩|⟨hk,ht⟩|⟨hk,ht⟩|⟨hk,ht⟩|⟨hk,ht⟩|⟨hk,ht⟩ <;>
    simp_all [truthyStr]
  case _ => intro h c hc; rcases kind_mem_whereConditions p c hc with
      ⟨hk,ht⟩|⟨hk,ht⟩|⟨hk,ht⟩|⟨hk,ht⟩|⟨hk,ht⟩|⟨hk,ht⟩|⟨hk,ht⟩|⟨hk,ht⟩|⟨hk,ht⟩|⟨hk,ht⟩|⟨hk,ht⟩ <;>
    simp_all [truthyStr]
  case _ => intro h c hc; rcases kind_mem_whereConditions p c hc with
      ⟨hk,ht⟩|⟨hk,ht⟩|⟨hk,ht⟩|⟨hk,ht⟩|⟨hk,ht⟩|⟨hk,ht⟩|⟨hk,ht⟩|⟨hk,ht⟩|⟨hk,ht⟩|⟨hk,ht⟩|⟨hk,ht⟩ <;>
    simp_all [truthyStr]
  case _ => intro h c hc; rcases kind_mem_whereConditions p c hc with
      ⟨hk,ht⟩|⟨hk,ht⟩|⟨hk,ht⟩|⟨hk,ht⟩|⟨hk,ht⟩|⟨hk,ht⟩|⟨hk,ht⟩|⟨hk,ht⟩|⟨hk,ht⟩|⟨hk,ht⟩|⟨hk,ht⟩ <;>
    simp_all [truthyStr]
  case _ => intro h c hc; rcases kind_mem_whereConditions p c hc with
      ⟨hk,ht⟩|⟨hk,ht⟩|⟨hk,ht⟩|⟨hk,ht⟩|⟨hk,ht⟩|⟨hk,ht⟩|⟨hk,ht⟩|⟨hk,ht⟩|⟨hk,ht⟩|⟨hk,ht⟩|⟨hk,ht⟩ <;>
    simp_all [truthyStr]
  case _ => intro h c hc; rcases kind_mem_whereConditions p c hc with
      ⟨hk,ht⟩|⟨hk,ht⟩|⟨hk,ht⟩|⟨hk,ht⟩|⟨hk,ht⟩|⟨hk,ht⟩|⟨hk,ht⟩|⟨hk,ht⟩|⟨hk,ht⟩|⟨hk,ht⟩|⟨hk,ht⟩ <;>
    simp_all [truthyStr]
  case _ => intro h c hc; rcases kind_mem_whereConditions p c hc with
      ⟨hk,ht⟩|⟨hk,ht⟩|⟨hk,ht⟩|⟨hk,ht⟩|⟨hk,ht⟩|⟨hk,ht⟩|⟨hk,ht⟩|⟨hk,ht⟩|⟨hk,ht⟩|⟨hk,ht⟩|⟨hk,ht⟩ <;>
    simp_all [truthyStr]
  case _ => intro h c hc; rcases kind_mem_whereConditions p c hc with
      ⟨hk,ht⟩|⟨hk,ht⟩|⟨hk,ht⟩|⟨hk,ht⟩|⟨hk,ht⟩|⟨hk,ht⟩|⟨hk,ht⟩|⟨hk,ht⟩|⟨hk,ht⟩|⟨hk,ht⟩|⟨hk,ht⟩ <;>
    rcases h with h | h <;> simp_all [truthyStr]
  case _ =>
    intro h
    subst h
    refine ⟨rfl, ?_⟩
    unfold getProperties
    exact List.filter_eq_self.mpr (fun a _ => rfl)

/-- C4 witness: the all-unset request on the sample table equals the
unfiltered query. -/
theorem claim_C4_witness :
    whereConditions noParams = [] ∧ getProperties dbP noParams = dbP.rows :=
  ((claim_C4 dbP noParams).2.2.2.2.2.2.2.2.2.2.2) rfl

/-- C7: when the geocoding response lacks a longitude or latitude, the
created Location gets the sentinel coordinates (0,0) and the creation
succeeds, persisting the location and the property. -/
theorem claim_C7 (body : CreatePropertyBody) (photoUrls : List String)
    (geoData : List GeoEntry) (db : CreateDb)
    (h : geoData.head?.bind GeoEntry.lon = none ∨ geoData.head?.bind GeoEntry.lat = none) :
    ∃ p loc db', createProperty body photoUrls geoData db = (.created p loc, db') ∧
      loc.lon = .val 0 ∧ loc.lat = .val 0 ∧
      db'.locations = db.locations ++ [loc] ∧
      db'.newProperties = db.newProperties ++ [p] := by
  have hc : resolveCoordinates geoData = (.val 0, .val 0) := by
    unfold resolveCoordinates
    rcases h with h | h <;> rw [h] <;> simp [truthyStr]
  unfold createProperty
  rw [hc]
  exact ⟨_, _, _, rfl, rfl, rfl, rfl, rfl⟩

/-- C7 witness: creating with a geocoding entry lacking the longitude. -/
theorem claim_C7_witness :
    ∃ p loc db', createProperty badBody [] geoNoLon emptyCreateDb = (.created p loc, db') ∧
      loc.lon = .val 0 ∧ loc.lat = .val 0 ∧
      db'.locations = emptyCreateDb.locations ++ [loc] ∧
      db'.newProperties = emptyCreateDb.newProperties ++ [p] :=
  claim_C7 badBody [] geoNoLon emptyCreateDb (Or.inl (by decide))

/-- C8 counterexample: a creation request with the unparseable price "abc"
does not fail with a ValidationFailed identifying the field — it succeeds,
persisting a property whose price is NaN. -/
theorem claim_C8_counterexample :
    (createProperty badBody [] geoOk emptyCreateDb).1.isValidationFailed = false ∧
    (createProperty badBody [] geoOk emptyCreateDb).1.createdPricePerMonth = some .nan ∧
    (createProperty badBody [] geoOk emptyCreateDb).2.newProperties.length = 1 := by
  refine ⟨by decide, by decide, by decide⟩

/-- C8 (amended): a malformed numeric field does not fail the creation:
`parseFloat` yields NaN, which is persisted in the created property, and
no code path produces a field-identifying ValidationFailed error. -/
theorem claim_C8 (body : CreatePropertyBody) (photoUrls : List String)
    (geoData : List GeoEntry) (db : CreateDb)
    (hbad : body.pricePerMonth.bind jsParseFloat = none) :
    ∃ p loc db', createProperty body photoUrls geoData db = (.created p loc, db') ∧
      p.pricePerMonth = .nan ∧
      db'.newProperties = db.newProperties ++ [p] ∧
      (∀ f, (createProperty body photoUrls geoData db).1 ≠ .validationFailed f) := by
  unfold createProperty
  dsimp only
  refine ⟨_, _, _, rfl, ?_, rfl, ?_⟩
  · show jnum (body.pricePerMonth.bind jsParseFloat) = .nan
    rw [hbad]
    rfl
  · intro f hcontra
    exact CreatePropertyResult.noConfusion hcontra

/-- C8 witness: the amended theorem at the "abc"-priced request. -/
theorem claim_C8_witness :
    ∃ p loc db', createProperty badBody [] geoOk emptyCreateDb = (.created p loc, db') ∧
      p.pricePerMonth = .nan ∧
      db'.newProperties = emptyCreateDb.newProperties ++ [p] ∧
      (∀ f, (createProperty badBody [] geoOk emptyCreateDb).1 ≠ .validationFailed f) :=
  claim_C8 badBody [] geoOk emptyCreateDb (by decide)
